import Mathlib

/-!
Verification of base/threading/platform_thread_linux.cc and
base/memory/ref_counted.h.

A shallow embedding of the thread-priority layer of `platform_thread_linux.cc`
and of the non-atomic reference counter of `ref_counted.h`.

* The operating system is an explicit state (`OSState`) plus a record of the
  answers the host gives to the calls the code makes (`Host`): return codes,
  permissions and directories stay fixed while the code runs.
* The process adds its thread-local `g_thread_id` and, as a ghost field, the
  list of state-changing OS calls issued so far (`World.calls`).
* A function that can hit a `CHECK`/`DCHECK` returns an `Outcome`: either it
  returned a value, or the process was terminated in the state recorded.
* `DVLOG`/`DVPLOG` statements only log and are left out.
* A membership file is the set of id texts written into it.
-/

namespace base

/-! ## Data model -/

/-- The four portable levels of `enum class ThreadPriority`. -/
inductive ThreadPriority where
  | BACKGROUND
  | NORMAL
  | DISPLAY
  | REALTIME_AUDIO
  deriving DecidableEq, Repr

open ThreadPriority

/-- One row of the priority table: `struct ThreadPriorityToNiceValuePair`. -/
structure ThreadPriorityToNiceValuePair where
  priority : ThreadPriority
  nice_value : Int
  deriving DecidableEq, Repr

/-- The `struct sched_param` of `<sched.h>`. -/
structure sched_param where
  sched_priority : Int
  deriving DecidableEq, Repr

/-- The `struct rlimit` of `<sys/resource.h>`. -/
structure rlimit where
  rlim_cur : Nat
  rlim_max : Nat
  deriving DecidableEq, Repr

/-- Scheduling policy numbers of `<sched.h>` on Linux. -/
def SCHED_OTHER : Int := 0

/-- Scheduling policy numbers of `<sched.h>` on Linux. -/
def SCHED_FIFO : Int := 1

/-- Scheduling policy numbers of `<sched.h>` on Linux. -/
def SCHED_RR : Int := 2

/-- The `which` argument of `setpriority`/`getpriority`. -/
def PRIO_PROCESS : Int := 0

/-- A state-changing call into the operating system, as the code issues it. -/
inductive Call where
  | WriteFile (path : String) (data : String)
  | pthread_setschedparam (policy : Int) (param : sched_param)
  | setpriority (which : Int) (who : Int) (prio : Int)
  deriving DecidableEq, Repr

/-- The answers of the host to the calls of the code. They are inputs of the
model: every theorem quantifies over all of them. -/
structure Host where
  /-- `DCHECK_IS_ON()`: whether `DCHECK`s are compiled in (debug builds). -/
  dcheck_is_on : Bool
  /-- Result of `getpid()`. -/
  getpid : Int
  /-- Result of `syscall(__NR_gettid)` on the calling thread. -/
  gettid : Int
  /-- Return value of `getrlimit(RLIMIT_RTPRIO, &rlim)`. -/
  getrlimit_ret : Int
  /-- What `rlim` holds after that call. -/
  rlim : rlimit
  /-- The helper `internal::CanLowerNiceTo` of base/posix/can_lower_nice_to.h. -/
  CanLowerNiceTo : Int → Bool
  /-- The helper `DirectoryExists` of base/files/file_util.h. -/
  DirectoryExists : String → Bool
  /-- Return value of `WriteFile(path, data, size)`: bytes written, or -1. -/
  WriteFile_ret : String → String → Int
  /-- Return value of `pthread_setschedparam(pthread_self(), policy, &param)`. -/
  pthread_setschedparam_ret : Int → sched_param → Int
  /-- Return value of `pthread_getschedparam(pthread_self(), ..)`. -/
  pthread_getschedparam_ret : Int
  /-- Return value of `setpriority(PRIO_PROCESS, who, prio)`. -/
  setpriority_ret : Int → Int → Int
  /-- The value of `errno` after `getpriority(PRIO_PROCESS, 0)`. -/
  getpriority_errno : Int

/-- The part of the operating system the code reads and writes. -/
@[ext]
structure OSState where
  /-- Scheduling policy of the calling thread. -/
  policy : Int
  /-- Real-time priority of the calling thread. -/
  sched_priority : Int
  /-- Nice value of every thread, by thread id. -/
  nice : Int → Int
  /-- Resource-group membership: `members path id` holds when the text `id` is
  in the membership file at `path`. -/
  members : String → String → Bool

/-- Process and OS state together. -/
@[ext]
structure World where
  /-- The variable `thread_local pid_t g_thread_id` of the calling thread. -/
  g_thread_id : Int
  /-- The operating system's side. -/
  os : OSState
  /-- Ghost: the state-changing OS calls issued so far, oldest first. -/
  calls : List Call

/-- How a call of a function that may hit a `CHECK` ends. -/
inductive Outcome (α : Type) where
  /-- The function returned `value`, leaving `world`. -/
  | returned (value : α) (world : World)
  /-- A fatal check fired: the process was terminated in `world`. -/
  | fatal (world : World)

/-! ## The environment: files and OS calls -/

/-- Modelled from the spec: `FilePath` (base/files/file_path.h is not among the
sources) is the text of a path, and `Append` joins one more component to it with
the separator `/` ("a well-known per-hierarchy, per-priority membership path
rooted at a fixed system directory"). -/
structure FilePath where
  value : String
  deriving DecidableEq, Repr

/-- See `FilePath`: the path with `component` joined on. -/
def FilePath.Append (path : FilePath) (component : String) : FilePath :=
  { value := path.value ++ "/" ++ component }

/-- Modelled from the spec: `NumberToString` (base/strings is not among the
sources) gives the "textual decimal thread-id". -/
def NumberToString (n : Int) : String :=
  toString n

/-- Modelled from the spec: `WriteFile` (base/files/file_util.h is not among the
sources) is the filesystem write helper. The only files the code writes are
membership files, where "membership is expressed as writing a textual decimal
thread-id" and each write is "a single atomic OS-level append": the call is
recorded, and when the host reports all of `data` written, `data` is among the
members of the file afterwards; otherwise nothing changes. The result is the
host's return value. -/
def WriteFile (h : Host) (filename : FilePath) (data : String) (w : World) : Int × World :=
  let ret := h.WriteFile_ret filename.value data
  let w1 : World := { w with calls := w.calls ++ [Call.WriteFile filename.value data] }
  if ret = (data.length : Int) then
    (ret,
      { w1 with
        os :=
          { w1.os with
            members :=
              Function.update w1.os.members filename.value
                (Function.update (w1.os.members filename.value) data true) } })
  else
    (ret, w1)

/-- The OS call `pthread_setschedparam(pthread_self(), policy, &param)`: the
call is recorded; when the host answers 0 the calling thread gets the policy and
the real-time priority asked for, otherwise nothing changes. -/
def pthread_setschedparam (h : Host) (policy : Int) (param : sched_param) (w : World) :
    Int × World :=
  let ret := h.pthread_setschedparam_ret policy param
  let w1 : World := { w with calls := w.calls ++ [Call.pthread_setschedparam policy param] }
  if ret = 0 then
    (ret, { w1 with os := { w1.os with policy := policy, sched_priority := param.sched_priority } })
  else
    (ret, w1)

/-- The OS call `setpriority(which, who, prio)` with `which = PRIO_PROCESS`: the
call is recorded; when the host answers 0 the nice value of thread `who` (the
calling thread for `who = 0`) becomes `prio`, otherwise nothing changes. -/
def setpriority (h : Host) (which : Int) (who : Int) (prio : Int) (w : World) : Int × World :=
  let ret := h.setpriority_ret who prio
  let w1 : World := { w with calls := w.calls ++ [Call.setpriority which who prio] }
  let target := if who = 0 then h.gettid else who
  if ret = 0 then
    (ret, { w1 with os := { w1.os with nice := Function.update w1.os.nice target prio } })
  else
    (ret, w1)

/-- The OS call `getpriority(PRIO_PROCESS, 0)`: the nice value of the calling
thread (`errno` is the host's `getpriority_errno`). -/
def getpriority (h : Host) (w : World) : Int :=
  w.os.nice h.gettid

/-! ## Resource-group placement -/

/-- The constant `kCgroupDirectory`. -/
def kCgroupDirectory : FilePath := { value := "/sys/fs/cgroup" }

/-- The function `ThreadPriorityToCgroupDirectory`. -/
def ThreadPriorityToCgroupDirectory (cgroup_filepath : FilePath) (priority : ThreadPriority) :
    FilePath :=
  match priority with
  | NORMAL => cgroup_filepath
  | BACKGROUND => cgroup_filepath.Append "non-urgent"
  | DISPLAY => cgroup_filepath.Append "urgent"
  | REALTIME_AUDIO => cgroup_filepath.Append "urgent"

/-- The function `SetThreadCgroup`: one `WriteFile` of the id's text to `tasks`
(a short write is only logged). -/
def SetThreadCgroup (h : Host) (thread_id : Int) (cgroup_directory : FilePath) (w : World) :
    World :=
  let tasks_filepath := cgroup_directory.Append "tasks"
  let tid := NumberToString thread_id
  (WriteFile h tasks_filepath tid w).2

/-- The function `SetThreadCgroupForThreadPriority`. -/
def SetThreadCgroupForThreadPriority (h : Host) (thread_id : Int) (cgroup_filepath : FilePath)
    (priority : ThreadPriority) (w : World) : World :=
  let cgroup_directory :=
    ThreadPriorityToCgroupDirectory (cgroup_filepath.Append "chrome") priority
  if h.DirectoryExists cgroup_directory.value = false then
    w
  else
    SetThreadCgroup h thread_id cgroup_directory w

/-- The function `SetThreadCgroupsForThreadPriority`. -/
def SetThreadCgroupsForThreadPriority (h : Host) (thread_id : Int) (priority : ThreadPriority)
    (w : World) : World :=
  let cgroup_filepath := kCgroupDirectory
  let w1 := SetThreadCgroupForThreadPriority h thread_id (cgroup_filepath.Append "cpuset") priority w
  SetThreadCgroupForThreadPriority h thread_id (cgroup_filepath.Append "schedtune") priority w1

/-! ## PriorityTable -/

namespace internal

/-- The constant `kRealTimePrio = {8}`. -/
def kRealTimePrio : sched_param := { sched_priority := 8 }

/-- The table `kThreadPriorityToNiceValueMap[4]`, rows in source order. -/
def kThreadPriorityToNiceValueMap : List ThreadPriorityToNiceValuePair :=
  [ { priority := BACKGROUND, nice_value := 10 },
    { priority := NORMAL, nice_value := 0 },
    { priority := DISPLAY, nice_value := -8 },
    { priority := REALTIME_AUDIO, nice_value := -10 } ]

/-- Modelled from the spec: `internal::ThreadPriorityToNiceValue` is declared in
platform_thread_internal_posix.h, whose implementation is not among the sources.
The spec's `ToNiceValue(level)` is the lookup of `level` in the table, "the
single source of truth"; the result for a level without a row (there is none) is
0 here. -/
def ThreadPriorityToNiceValue (priority : ThreadPriority) : Int :=
  match kThreadPriorityToNiceValueMap.find? (fun pair => pair.priority == priority) with
  | some pair => pair.nice_value
  | none => 0

/-- Modelled from the spec: `internal::NiceValueToThreadPriority` is declared in
platform_thread_internal_posix.h, whose implementation is not among the sources.
The spec's `FromNiceValue(integer)` is the reverse lookup in the table; "unmapped
values fall back to NORMAL". -/
def NiceValueToThreadPriority (nice_value : Int) : ThreadPriority :=
  match kThreadPriorityToNiceValueMap.find? (fun pair => pair.nice_value == nice_value) with
  | some pair => pair.priority
  | none => NORMAL

end internal

open internal

namespace PlatformThread

end PlatformThread

namespace internal

/-- The function `internal::ClearTidCache`, the child handler `InitAtFork`
registers with `pthread_atfork`. -/
def ClearTidCache (w : World) : World :=
  { w with g_thread_id := -1 }

end internal

namespace PlatformThread

/-- The function `PlatformThread::CurrentId`. The first branch fills the
thread-local cache from the OS; the second is the `DCHECK_EQ` of the cached id
against a fresh query, fatal when `DCHECK`s are compiled in. -/
def CurrentId (h : Host) (w : World) : Outcome Int :=
  if w.g_thread_id = -1 then
    let w1 : World := { w with g_thread_id := h.gettid }
    Outcome.returned w1.g_thread_id w1
  else if h.dcheck_is_on = true ∧ w.g_thread_id ≠ h.gettid then
    Outcome.fatal w
  else
    Outcome.returned w.g_thread_id w

end PlatformThread

namespace internal

/-- The function `internal::SetCurrentThreadPriorityForPlatform`: resource-group
placement under the id `CurrentId()` gives, then, for REALTIME_AUDIO only (the
`&&` short-circuits), the switch to `SCHED_RR` at `kRealTimePrio`. -/
def SetCurrentThreadPriorityForPlatform (h : Host) (priority : ThreadPriority) (w : World) :
    Outcome Bool :=
  match PlatformThread.CurrentId h w with
  | Outcome.fatal w1 => Outcome.fatal w1
  | Outcome.returned current_id w1 =>
    let w2 := SetThreadCgroupsForThreadPriority h current_id priority w1
    if priority = REALTIME_AUDIO then
      let r := pthread_setschedparam h SCHED_RR kRealTimePrio w2
      Outcome.returned (decide (r.1 = 0)) r.2
    else
      Outcome.returned false w2

/-- The function `internal::GetCurrentThreadPriorityForPlatform`. -/
def GetCurrentThreadPriorityForPlatform (h : Host) (w : World) : Option ThreadPriority :=
  if h.pthread_getschedparam_ret = 0 ∧ w.os.policy = SCHED_RR ∧
      w.os.sched_priority = kRealTimePrio.sched_priority then
    some REALTIME_AUDIO
  else
    none

end internal

namespace PlatformThread

/-- The function `PlatformThread::SetCurrentThreadPriorityImpl`. -/
def SetCurrentThreadPriorityImpl (h : Host) (priority : ThreadPriority) (w : World) :
    Outcome Unit :=
  match SetCurrentThreadPriorityForPlatform h priority w with
  | Outcome.fatal w1 => Outcome.fatal w1
  | Outcome.returned true w1 => Outcome.returned () w1
  | Outcome.returned false w1 =>
    let nice_setting := ThreadPriorityToNiceValue priority
    Outcome.returned () (setpriority h PRIO_PROCESS 0 nice_setting w1).2

/-- The function `PlatformThread::GetCurrentThreadPriority`. -/
def GetCurrentThreadPriority (h : Host) (w : World) : ThreadPriority :=
  match GetCurrentThreadPriorityForPlatform h w with
  | some platform_specific_priority => platform_specific_priority
  | none =>
    let nice_value := getpriority h w
    if h.getpriority_errno ≠ 0 then
      NORMAL
    else
      NiceValueToThreadPriority nice_value

/-- The function `PlatformThread::SetThreadPriority`: `CHECK_NE(thread_id,
getpid())` comes first and is fatal in every build. -/
def SetThreadPriority (h : Host) (thread_id : Int) (priority : ThreadPriority) (w : World) :
    Outcome Unit :=
  if thread_id = h.getpid then
    Outcome.fatal w
  else
    let w1 := SetThreadCgroupsForThreadPriority h thread_id priority w
    let nice_setting := ThreadPriorityToNiceValue priority
    Outcome.returned () (setpriority h PRIO_PROCESS thread_id nice_setting w1).2

end PlatformThread

/-! ## base/memory/ref_counted.h -/

/-- The constructor tags `StartRefCountFromZeroTag` and `StartRefCountFromOneTag`
(declared in base/memory/scoped_refptr.h), as one type. -/
inductive StartRefCountTag where
  | kStartRefCountFromZeroTag
  | kStartRefCountFromOneTag
  deriving DecidableEq, Repr

namespace subtle

/-- The class `subtle::RefCountedBase`: its only member is the counter
`mutable uint32_t ref_count_`, kept as a natural number below `2 ^ 32` with
the wrap-around written out. -/
structure RefCountedBase where
  ref_count_ : Nat
  deriving DecidableEq, Repr

namespace RefCountedBase

/-- The two constructors: the zero tag leaves the member initialiser
`ref_count_ = 0`, the one tag sets `ref_count_(1)`. -/
def new (tag : StartRefCountTag) : RefCountedBase :=
  match tag with
  | StartRefCountTag.kStartRefCountFromZeroTag => { ref_count_ := 0 }
  | StartRefCountTag.kStartRefCountFromOneTag => { ref_count_ := 1 }

/-- The method `HasOneRef`. -/
def HasOneRef (self : RefCountedBase) : Bool :=
  self.ref_count_ == 1

/-- The method `HasAtLeastOneRef`. -/
def HasAtLeastOneRef (self : RefCountedBase) : Bool :=
  decide (self.ref_count_ ≥ 1)

/-- The method `AddRefImpl`: `++ref_count_` on a `uint32_t`. -/
def AddRefImpl (self : RefCountedBase) : RefCountedBase :=
  { ref_count_ := (self.ref_count_ + 1) % 2 ^ 32 }

/-- The method `ReleaseImpl`: `--ref_count_` on a `uint32_t`. -/
def ReleaseImpl (self : RefCountedBase) : RefCountedBase :=
  { ref_count_ := (self.ref_count_ + (2 ^ 32 - 1)) % 2 ^ 32 }

/-- The method `AddRef`. -/
def AddRef (self : RefCountedBase) : RefCountedBase :=
  self.AddRefImpl

/-- The method `Release`: the result and the object afterwards. -/
def Release (self : RefCountedBase) : Bool × RefCountedBase :=
  let self1 := self.ReleaseImpl
  (self1.ref_count_ == 0, self1)

end RefCountedBase

end subtle

/-- An object of a class derived from `RefCounted<T>`: the base's counter and
whether `Traits::Destruct` (that is `delete`) has run on it. -/
structure RefCounted where
  toBase : subtle.RefCountedBase
  destructed : Bool
  deriving DecidableEq, Repr

namespace RefCounted

/-- The constructor `RefCounted() : subtle::RefCountedBase(T::kRefCountPreference)`. -/
def new (kRefCountPreference : StartRefCountTag) : RefCounted :=
  { toBase := subtle.RefCountedBase.new kRefCountPreference, destructed := false }

/-- The method `RefCounted::AddRef`. -/
def AddRef (self : RefCounted) : RefCounted :=
  { self with toBase := self.toBase.AddRef }

/-- The method `RefCounted::Release`: destructs exactly when the base's
`Release` returns true. -/
def Release (self : RefCounted) : RefCounted :=
  let r := self.toBase.Release
  if r.1 = true then
    { toBase := r.2, destructed := true }
  else
    { self with toBase := r.2 }

end RefCounted

/-- The class `MyClass` of test.cpp: `REQUIRE_ADOPTION_FOR_REFCOUNTED_TYPE()`
makes its `kRefCountPreference` the one tag. -/
def MyClass.kRefCountPreference : StartRefCountTag :=
  StartRefCountTag.kStartRefCountFromOneTag

/-- One call on a reference-counted object. -/
inductive RefOp where
  | AddRef
  | Release
  deriving DecidableEq, Repr

/-- One call applied to an object. -/
def RefOp.apply (op : RefOp) (obj : RefCounted) : RefCounted :=
  match op with
  | RefOp.AddRef => obj.AddRef
  | RefOp.Release => obj.Release

/-- A sequence of calls applied to an object, first call first. -/
def runOps (ops : List RefOp) (obj : RefCounted) : RefCounted :=
  ops.foldl (fun o op => op.apply o) obj

/-- Number of `AddRef` calls in a sequence. -/
def countAddRef (ops : List RefOp) : Nat :=
  ops.count RefOp.AddRef

/-- Number of `Release` calls in a sequence. -/
def countRelease (ops : List RefOp) : Nat :=
  ops.count RefOp.Release

/-- With `depth` references outstanding, every `Release` of `ops` gives back a
reference taken before it and none is left outstanding at the end. -/
def wellNested (depth : Nat) (ops : List RefOp) : Bool :=
  match ops with
  | [] => depth == 0
  | RefOp.AddRef :: rest => wellNested (depth + 1) rest
  | RefOp.Release :: rest => decide (0 < depth) && wellNested (depth - 1) rest

/-- A sequence made only of balanced `AddRef`/`Release` pairs. -/
def Balanced (ops : List RefOp) : Prop :=
  wellNested 0 ops = true

/-- The largest number of references outstanding while `ops` runs, starting
with `depth` of them. -/
def maxDepth (depth : Nat) (ops : List RefOp) : Nat :=
  match ops with
  | [] => depth
  | RefOp.AddRef :: rest => max depth (maxDepth (depth + 1) rest)
  | RefOp.Release :: rest => max depth (maxDepth (depth - 1) rest)

/-- As many `AddRef` calls as a `uint32_t` has values, then as many `Release`
calls: one balanced nest, `2 ^ 32` deep. -/
def overflowOps : List RefOp :=
  List.replicate (2 ^ 32) RefOp.AddRef ++ List.replicate (2 ^ 32) RefOp.Release

/-! ## Concrete hosts and states -/

/-- A host where `getrlimit` succeeds with a zero soft limit, the real-time
switch is refused (`EPERM`), and every other call succeeds. -/
def hostNoRt : Host :=
  { dcheck_is_on := true
    getpid := 100
    gettid := 101
    getrlimit_ret := 0
    rlim := { rlim_cur := 0, rlim_max := 0 }
    CanLowerNiceTo := fun _ => true
    DirectoryExists := fun _ => true
    WriteFile_ret := fun _ data => (data.length : Int)
    pthread_setschedparam_ret := fun _ _ => 1
    pthread_getschedparam_ret := 0
    setpriority_ret := fun _ _ => 0
    getpriority_errno := 0 }

/-- A host where the real-time switch is granted and every call succeeds. -/
def hostRt : Host :=
  { hostNoRt with
    rlim := { rlim_cur := 99, rlim_max := 99 }
    pthread_setschedparam_ret := fun _ _ => 0 }

/-- The host `hostRt`, except that `pthread_getschedparam` fails. -/
def hostRtNoQuery : Host :=
  { hostRt with pthread_getschedparam_ret := 1 }

/-- A fresh thread: cache unset, `SCHED_OTHER`, nice 0 everywhere, member of
no resource group, no call issued yet. -/
def freshWorld : World :=
  { g_thread_id := -1
    os :=
      { policy := SCHED_OTHER, sched_priority := 0, nice := fun _ => 0,
        members := fun _ _ => false }
    calls := [] }

/-- A thread already in the round-robin class at `kRealTimePrio`. -/
def rrWorld : World :=
  { freshWorld with
    os := { freshWorld.os with policy := SCHED_RR, sched_priority := 8 } }

/-- A thread whose cached id (5) is not the id the OS reports. -/
def staleWorld : World :=
  { freshWorld with g_thread_id := 5 }

/-- The `DCHECK_EQ` of `CurrentId` cannot fire in `w`: `DCHECK`s are compiled
out, or the thread-local cache is unset, or it holds the id the OS reports. -/
def TidCacheValid (h : Host) (w : World) : Prop :=
  h.dcheck_is_on = false ∨ w.g_thread_id = -1 ∨ w.g_thread_id = h.gettid

/-- The id `CurrentId` hands out in `w`: the cached one, or the OS's when the
cache is unset. -/
def cachedId (h : Host) (w : World) : Int :=
  if w.g_thread_id = -1 then h.gettid else w.g_thread_id

/-- The directory of one hierarchy for a level, as
`SetThreadCgroupsForThreadPriority` builds it. -/
def cgroupDirectory (hierarchy : String) (priority : ThreadPriority) : FilePath :=
  ThreadPriorityToCgroupDirectory ((kCgroupDirectory.Append hierarchy).Append "chrome") priority

/-- The calls one hierarchy's step issues. -/
def hierarchyCalls (h : Host) (thread_id : Int) (hierarchy : String)
    (priority : ThreadPriority) : List Call :=
  if h.DirectoryExists (cgroupDirectory hierarchy priority).value = true then
    [Call.WriteFile ((cgroupDirectory hierarchy priority).Append "tasks").value
      (NumberToString thread_id)]
  else
    []

/-- The memberships after one hierarchy's step. -/
def hierarchyMembers (h : Host) (thread_id : Int) (hierarchy : String)
    (priority : ThreadPriority) (members : String → String → Bool) : String → String → Bool :=
  if h.DirectoryExists (cgroupDirectory hierarchy priority).value = true ∧
      h.WriteFile_ret ((cgroupDirectory hierarchy priority).Append "tasks").value
        (NumberToString thread_id) = ((NumberToString thread_id).length : Int) then
    Function.update members ((cgroupDirectory hierarchy priority).Append "tasks").value
      (Function.update (members ((cgroupDirectory hierarchy priority).Append "tasks").value)
        (NumberToString thread_id) true)
  else
    members

/-- The state `SetCurrentThreadPriorityImpl` returns in when `CurrentId` does
not stop it: placement, then the switch alone if it is asked for and granted,
else the nice value. -/
def implFinalWorld (h : Host) (priority : ThreadPriority) (w : World) : World :=
  if priority = REALTIME_AUDIO ∧ h.pthread_setschedparam_ret SCHED_RR kRealTimePrio = 0 then
    (pthread_setschedparam h SCHED_RR kRealTimePrio
      (SetThreadCgroupsForThreadPriority h (cachedId h w) priority
        { w with g_thread_id := cachedId h w })).2
  else if priority = REALTIME_AUDIO then
    (setpriority h PRIO_PROCESS 0 (ThreadPriorityToNiceValue priority)
      (pthread_setschedparam h SCHED_RR kRealTimePrio
        (SetThreadCgroupsForThreadPriority h (cachedId h w) priority
          { w with g_thread_id := cachedId h w })).2).2
  else
    (setpriority h PRIO_PROCESS 0 (ThreadPriorityToNiceValue priority)
      (SetThreadCgroupsForThreadPriority h (cachedId h w) priority
        { w with g_thread_id := cachedId h w })).2

/-- The state an outcome ends in. -/
def Outcome.world {α : Type} (o : Outcome α) : World :=
  match o with
  | Outcome.returned _ w => w
  | Outcome.fatal w => w

/-- The call `SetCurrentThreadPriorityImpl(priority)` made twice in a row: the
second call starts where the first returned, and is not made when the first
was fatal. -/
def applyTwice (h : Host) (priority : ThreadPriority) (w : World) : Outcome Unit :=
  match PlatformThread.SetCurrentThreadPriorityImpl h priority w with
  | Outcome.fatal w1 => Outcome.fatal w1
  | Outcome.returned _ w1 => PlatformThread.SetCurrentThreadPriorityImpl h priority w1

/-! ## Theorems -/

open PlatformThread

/-! ### PriorityTable (C4) -/

/-- The reverse lookup of the nice value of a level is that level. -/
theorem nice_value_to_priority_of_priority (level : ThreadPriority) :
    NiceValueToThreadPriority (ThreadPriorityToNiceValue level) = level := by
  cases level <;> rfl

/-- Only the nice value -10 is read back as REALTIME_AUDIO. -/
theorem nice_value_to_priority_eq_realtime_audio (n : Int) :
    NiceValueToThreadPriority n = REALTIME_AUDIO ↔ n = -10 := by
  constructor
  · intro hn
    by_contra hne
    by_cases h10 : n = 10
    · subst h10
      exact absurd hn (by decide)
    · by_cases h0 : n = 0
      · subst h0
        exact absurd hn (by decide)
      · by_cases h8 : n = -8
        · subst h8
          exact absurd hn (by decide)
        · have hfind :
              kThreadPriorityToNiceValueMap.find? (fun pair => pair.nice_value == n) = none := by
            rw [List.find?_eq_none]
            intro pair hpair
            simp only [kThreadPriorityToNiceValueMap, List.mem_cons, List.mem_singleton,
              List.not_mem_nil, or_false] at hpair
            rcases hpair with rfl | rfl | rfl | rfl <;> simp <;> omega
          simp [NiceValueToThreadPriority, hfind] at hn
  · intro hn
    subst hn
    rfl

/-- C4: with the two lookups over the four-row table (BACKGROUND 10, NORMAL 0,
DISPLAY -8, REALTIME_AUDIO -10), the reverse lookup of the nice value of every
level is that level; the nice values of the table are pairwise distinct, and a
nice value that is not in the table maps to NORMAL. -/
theorem nice_value_round_trip :
    (∀ level : ThreadPriority,
        NiceValueToThreadPriority (ThreadPriorityToNiceValue level) = level) ∧
    (kThreadPriorityToNiceValueMap.map (fun pair => pair.nice_value)).Nodup ∧
    kThreadPriorityToNiceValueMap.map (fun pair => (pair.priority, pair.nice_value)) =
      [(BACKGROUND, 10), (NORMAL, 0), (DISPLAY, -8), ( REALTIME_AUDIO, -10)] ∧
    (∀ level : ThreadPriority, ∃ pair ∈ kThreadPriorityToNiceValueMap,
        pair.priority = level ∧ pair.nice_value = ThreadPriorityToNiceValue level) ∧
    (∀ n : Int, (∀ pair ∈ kThreadPriorityToNiceValueMap, pair.nice_value ≠ n) →
        NiceValueToThreadPriority n = NORMAL) := by
  refine ⟨?_, by decide, rfl, ?_, ?_⟩
  · intro level
    cases level <;> rfl
  · intro level
    cases level <;> simp [kThreadPriorityToNiceValueMap, ThreadPriorityToNiceValue]
  · intro n hn
    have hfind : kThreadPriorityToNiceValueMap.find? (fun pair => pair.nice_value == n) = none := by
      rw [List.find?_eq_none]
      intro pair hpair
      simpa using hn pair hpair
    simp [NiceValueToThreadPriority, hfind]

/-! ### CanIncreaseThreadPriority (C1) -/

/-- The nice value of REALTIME_AUDIO in the table. -/
theorem nice_value_realtime_audio : ThreadPriorityToNiceValue REALTIME_AUDIO = -10 := rfl

/-- C5: for every level, `SetThreadPriority(thread_id, level)` ends in the fatal
`CHECK` exactly when `thread_id` is the process id, and then the state at the
abort is the state it was called in: no file written, no nice value changed,
no OS call issued. -/
theorem set_thread_priority_fatal_iff_main_thread (h : Host) (thread_id : Int)
    (priority : ThreadPriority) (w : World) :
    ((∃ w1, SetThreadPriority h thread_id priority w = Outcome.fatal w1) ↔
        thread_id = h.getpid) ∧
    (SetThreadPriority h thread_id priority w = Outcome.fatal w ↔ thread_id = h.getpid) ∧
    ((∃ w1, SetThreadPriority h thread_id priority w = Outcome.returned () w1) ↔
        thread_id ≠ h.getpid) := by
  unfold SetThreadPriority
  by_cases hpid : thread_id = h.getpid
  · simp [hpid]
  · simp [hpid]

/-! ### Resource-group placement -/

/-- The directory `SetThreadCgroupForThreadPriority` looks for, as text. -/
theorem cgroup_directory_value (hierarchy : String) (priority : ThreadPriority) :
    (cgroupDirectory hierarchy priority).value =
      "/sys/fs/cgroup/" ++ hierarchy ++ "/chrome" ++
        (match priority with
          | BACKGROUND => "/non-urgent"
          | NORMAL => ""
          | DISPLAY => "/urgent"
          | REALTIME_AUDIO => "/urgent") := by
  have hroot : "/sys/fs/cgroup" ++ "/" = "/sys/fs/cgroup/" := by decide
  have hchrome : "/" ++ "chrome" = "/chrome" := by decide
  have hnon : "/" ++ "non-urgent" = "/non-urgent" := by decide
  have hurg : "/" ++ "urgent" = "/urgent" := by decide
  cases priority <;>
    simp only [cgroupDirectory, ThreadPriorityToCgroupDirectory, FilePath.Append, kCgroupDirectory,
      String.append_assoc, hchrome, hnon, hurg, String.append_empty] <;>
    rw [← String.append_assoc, hroot]

/-! ### Frame lemmas -/

/-- One hierarchy's step in closed form. -/
theorem set_thread_cgroup_for_priority_eq (h : Host) (thread_id : Int) (hierarchy : String)
    (priority : ThreadPriority) (w : World) :
    SetThreadCgroupForThreadPriority h thread_id (kCgroupDirectory.Append hierarchy) priority w =
      { g_thread_id := w.g_thread_id
        os :=
          { policy := w.os.policy
            sched_priority := w.os.sched_priority
            nice := w.os.nice
            members := hierarchyMembers h thread_id hierarchy priority w.os.members }
        calls := w.calls ++ hierarchyCalls h thread_id hierarchy priority } := by
  unfold SetThreadCgroupForThreadPriority SetThreadCgroup WriteFile hierarchyMembers
    hierarchyCalls cgroupDirectory
  dsimp only
  split_ifs <;> simp_all

/-- Both hierarchies' steps in closed form. -/
theorem set_thread_cgroups_eq (h : Host) (thread_id : Int) (priority : ThreadPriority)
    (w : World) :
    SetThreadCgroupsForThreadPriority h thread_id priority w =
      { g_thread_id := w.g_thread_id
        os :=
          { policy := w.os.policy
            sched_priority := w.os.sched_priority
            nice := w.os.nice
            members := hierarchyMembers h thread_id "schedtune" priority
              (hierarchyMembers h thread_id "cpuset" priority w.os.members) }
        calls := w.calls ++ hierarchyCalls h thread_id "cpuset" priority ++
          hierarchyCalls h thread_id "schedtune" priority } := by
  unfold SetThreadCgroupsForThreadPriority
  simp only [set_thread_cgroup_for_priority_eq]

/-- Membership after one hierarchy's step, member by member. -/
theorem hierarchy_members_apply (h : Host) (thread_id : Int) (hierarchy : String)
    (priority : ThreadPriority) (members : String → String → Bool) (path id : String) :
    hierarchyMembers h thread_id hierarchy priority members path id =
      ((decide (h.DirectoryExists (cgroupDirectory hierarchy priority).value = true ∧
          h.WriteFile_ret ((cgroupDirectory hierarchy priority).Append "tasks").value
            (NumberToString thread_id) = ((NumberToString thread_id).length : Int)) &&
        decide (path = ((cgroupDirectory hierarchy priority).Append "tasks").value ∧
          id = NumberToString thread_id)) || members path id) := by
  unfold hierarchyMembers
  split_ifs with hdone
  · rw [Function.update_apply]
    split_ifs with hpath
    · subst hpath
      rw [Function.update_apply]
      split_ifs with hid
      · simp [hdone, hid]
      · simp [hid]
    · simp [hpath]
  · simp [hdone]

/-- Taking the same two memberships twice is taking them once. -/
theorem or_twice (s c m : Bool) : (s || (c || (s || (c || m)))) = (s || (c || m)) := by
  cases s <;> cases c <;> rfl

/-- Writing the same id to the same two membership files again changes no
membership. -/
theorem hierarchy_members_idempotent (h : Host) (thread_id : Int) (priority : ThreadPriority)
    (members : String → String → Bool) :
    hierarchyMembers h thread_id "schedtune" priority
        (hierarchyMembers h thread_id "cpuset" priority
          (hierarchyMembers h thread_id "schedtune" priority
            (hierarchyMembers h thread_id "cpuset" priority members))) =
      hierarchyMembers h thread_id "schedtune" priority
        (hierarchyMembers h thread_id "cpuset" priority members) := by
  funext path id
  simp only [hierarchy_members_apply]
  exact or_twice _ _ _

/-- With a valid cache `CurrentId` returns, and leaves the id it returned in
the cache. -/
theorem current_id_of_valid (h : Host) (w : World) (hv : TidCacheValid h w) :
    CurrentId h w = Outcome.returned (cachedId h w) { w with g_thread_id := cachedId h w } := by
  unfold CurrentId cachedId
  by_cases hunset : w.g_thread_id = -1
  · simp [hunset]
  · have hcheck : ¬ (h.dcheck_is_on = true ∧ w.g_thread_id ≠ h.gettid) := by
      rcases hv with hoff | hunset2 | hsame
      · simp [hoff]
      · exact absurd hunset2 hunset
      · simp [hsame]
    rw [if_neg hunset, if_neg hcheck, if_neg hunset]

/-- After a call the cache is valid and hands out the same id again. -/
theorem cached_id_stable (h : Host) (w : World) (hv : TidCacheValid h w) :
    TidCacheValid h { w with g_thread_id := cachedId h w } ∧
    cachedId h { w with g_thread_id := cachedId h w } = cachedId h w := by
  unfold TidCacheValid cachedId at *
  by_cases hunset : w.g_thread_id = -1
  · refine ⟨Or.inr (Or.inr ?_), ?_⟩
    · simp [hunset]
    · by_cases hneg : h.gettid = -1 <;> simp [hunset, hneg]
  · refine ⟨?_, ?_⟩
    · rcases hv with hoff | hunset2 | hsame
      · exact Or.inl hoff
      · exact absurd hunset2 hunset
      · exact Or.inr (Or.inr (by simp [hunset, hsame]))
    · simp [hunset]

/-- The return value of the modelled `pthread_setschedparam`. -/
theorem pthread_setschedparam_fst (h : Host) (policy : Int) (param : sched_param) (w : World) :
    (pthread_setschedparam h policy param w).1 = h.pthread_setschedparam_ret policy param := by
  unfold pthread_setschedparam
  dsimp only
  split_ifs <;> rfl

/-- The state after a granted `pthread_setschedparam`. -/
theorem pthread_setschedparam_granted (h : Host) (policy : Int) (param : sched_param)
    (w : World) (hret : h.pthread_setschedparam_ret policy param = 0) :
    (pthread_setschedparam h policy param w).2 =
      { g_thread_id := w.g_thread_id
        os :=
          { policy := policy
            sched_priority := param.sched_priority
            nice := w.os.nice
            members := w.os.members }
        calls := w.calls ++ [Call.pthread_setschedparam policy param] } := by
  unfold pthread_setschedparam
  simp [hret]

/-- The state after a refused `pthread_setschedparam`. -/
theorem pthread_setschedparam_refused (h : Host) (policy : Int) (param : sched_param)
    (w : World) (hret : h.pthread_setschedparam_ret policy param ≠ 0) :
    (pthread_setschedparam h policy param w).2 =
      { w with calls := w.calls ++ [Call.pthread_setschedparam policy param] } := by
  unfold pthread_setschedparam
  simp [hret]

/-- The state after the modelled `setpriority`. -/
theorem setpriority_snd (h : Host) (which who prio : Int) (w : World) :
    (setpriority h which who prio w).2 =
      { g_thread_id := w.g_thread_id
        os :=
          { policy := w.os.policy
            sched_priority := w.os.sched_priority
            nice :=
              if h.setpriority_ret who prio = 0 then
                Function.update w.os.nice (if who = 0 then h.gettid else who) prio
              else w.os.nice
            members := w.os.members }
        calls := w.calls ++ [Call.setpriority which who prio] } := by
  unfold setpriority
  dsimp only
  split_ifs <;> rfl

/-- With a valid cache `SetCurrentThreadPriorityImpl` returns; its final state
in closed form. -/
theorem set_current_thread_priority_impl_of_valid (h : Host) (priority : ThreadPriority)
    (w : World) (hv : TidCacheValid h w) :
    SetCurrentThreadPriorityImpl h priority w =
      Outcome.returned ()
        (if priority = REALTIME_AUDIO ∧ h.pthread_setschedparam_ret SCHED_RR kRealTimePrio = 0 then
          (pthread_setschedparam h SCHED_RR kRealTimePrio
            (SetThreadCgroupsForThreadPriority h (cachedId h w) priority
              { w with g_thread_id := cachedId h w })).2
        else if priority = REALTIME_AUDIO then
          (setpriority h PRIO_PROCESS 0 (ThreadPriorityToNiceValue priority)
            (pthread_setschedparam h SCHED_RR kRealTimePrio
              (SetThreadCgroupsForThreadPriority h (cachedId h w) priority
                { w with g_thread_id := cachedId h w })).2).2
        else
          (setpriority h PRIO_PROCESS 0 (ThreadPriorityToNiceValue priority)
            (SetThreadCgroupsForThreadPriority h (cachedId h w) priority
              { w with g_thread_id := cachedId h w })).2) := by
  unfold SetCurrentThreadPriorityImpl SetCurrentThreadPriorityForPlatform
  rw [current_id_of_valid h w hv]
  by_cases hrt : priority = REALTIME_AUDIO
  · by_cases hret : h.pthread_setschedparam_ret SCHED_RR kRealTimePrio = 0
    · simp [hrt, hret, pthread_setschedparam_fst]
    · simp [hrt, hret, pthread_setschedparam_fst]
  · simp [hrt]

/-- The calls of one hierarchy's step are file writes only. -/
theorem hierarchy_calls_are_writes (h : Host) (thread_id : Int) (hierarchy : String)
    (priority : ThreadPriority) (c : Call) (hc : c ∈ hierarchyCalls h thread_id hierarchy priority) :
    ∃ path data, c = Call.WriteFile path data := by
  unfold hierarchyCalls at hc
  split_ifs at hc
  · simp only [List.mem_singleton] at hc
    exact ⟨_, _, hc⟩
  · simp at hc

/-! ### Resource-group placement, the claim (C7) -/

/-- The two hierarchies have different membership files. -/
theorem tasks_paths_differ (priority : ThreadPriority) :
    ((cgroupDirectory "cpuset" priority).Append "tasks").value ≠
      ((cgroupDirectory "schedtune" priority).Append "tasks").value := by
  cases priority <;> decide

/-- C7: for every thread id, level and filesystem,
`SetThreadCgroupsForThreadPriority` returns, and with `D` the directory
`/sys/fs/cgroup/<hierarchy>/chrome` extended by `non-urgent` for BACKGROUND, by
`urgent` for DISPLAY and REALTIME_AUDIO and by nothing for NORMAL, for each of
the hierarchies `cpuset` and `schedtune` the write of the decimal text of the
thread id to `D/tasks` is among the calls issued if and only if `D` exists.
Nothing else is issued: every call is such a write for a hierarchy whose `D`
exists, the one for `cpuset` first. -/
theorem set_thread_cgroups_writes_iff_directory_exists (h : Host) (thread_id : Int)
    (priority : ThreadPriority) (w : World) :
    ∃ issued, (SetThreadCgroupsForThreadPriority h thread_id priority w).calls =
        w.calls ++ issued ∧
      (∀ hierarchy : String, hierarchy = "cpuset" ∨ hierarchy = "schedtune" →
        (cgroupDirectory hierarchy priority).value =
          "/sys/fs/cgroup/" ++ hierarchy ++ "/chrome" ++
            (match priority with
              | BACKGROUND => "/non-urgent"
              | NORMAL => ""
              | DISPLAY => "/urgent"
              | REALTIME_AUDIO => "/urgent") ∧
        (Call.WriteFile ((cgroupDirectory hierarchy priority).Append "tasks").value
            (NumberToString thread_id) ∈ issued ↔
          h.DirectoryExists (cgroupDirectory hierarchy priority).value = true)) ∧
      (∀ c ∈ issued, ∃ hierarchy : String, (hierarchy = "cpuset" ∨ hierarchy = "schedtune") ∧
        h.DirectoryExists (cgroupDirectory hierarchy priority).value = true ∧
        c = Call.WriteFile ((cgroupDirectory hierarchy priority).Append "tasks").value
          (NumberToString thread_id)) ∧
      issued =
        (if h.DirectoryExists (cgroupDirectory "cpuset" priority).value = true then
          [Call.WriteFile ((cgroupDirectory "cpuset" priority).Append "tasks").value
            (NumberToString thread_id)]
        else []) ++
        (if h.DirectoryExists (cgroupDirectory "schedtune" priority).value = true then
          [Call.WriteFile ((cgroupDirectory "schedtune" priority).Append "tasks").value
            (NumberToString thread_id)]
        else []) := by
  have hdiff := tasks_paths_differ priority
  refine ⟨hierarchyCalls h thread_id "cpuset" priority ++
      hierarchyCalls h thread_id "schedtune" priority, ?_, ?_, ?_, rfl⟩
  · rw [set_thread_cgroups_eq, List.append_assoc]
  · intro hierarchy hhier
    refine ⟨cgroup_directory_value hierarchy priority, ?_⟩
    rcases hhier with rfl | rfl
    · unfold hierarchyCalls
      by_cases hc : h.DirectoryExists (cgroupDirectory "cpuset" priority).value = true <;>
        by_cases hs : h.DirectoryExists (cgroupDirectory "schedtune" priority).value = true <;>
        simp [hc, hs, hdiff]
    · unfold hierarchyCalls
      by_cases hc : h.DirectoryExists (cgroupDirectory "cpuset" priority).value = true <;>
        by_cases hs : h.DirectoryExists (cgroupDirectory "schedtune" priority).value = true <;>
        simp [hc, hs, Ne.symm hdiff]
  · intro c hc
    rw [List.mem_append] at hc
    rcases hc with hc | hc
    · refine ⟨"cpuset", Or.inl rfl, ?_⟩
      unfold hierarchyCalls at hc
      split_ifs at hc with hdir
      · exact ⟨hdir, List.mem_singleton.1 hc⟩
      · simp at hc
    · refine ⟨"schedtune", Or.inr rfl, ?_⟩
      unfold hierarchyCalls at hc
      split_ifs at hc with hdir
      · exact ⟨hdir, List.mem_singleton.1 hc⟩
      · simp at hc

/-! ### ThreadIdentityCache (C9) -/

/-- C9, counterexample: in a build with `DCHECK`s, with 5 in the cache of a
thread whose OS id is 101, the first `CurrentId()` does not return: the
`DCHECK_EQ` terminates the process. -/
theorem current_id_fatal_on_stale_cache :
    hostNoRt.dcheck_is_on = true ∧ staleWorld.g_thread_id = 5 ∧ hostNoRt.gettid = 101 ∧
    CurrentId hostNoRt staleWorld = Outcome.fatal staleWorld :=
  ⟨rfl, rfl, rfl, rfl⟩

/-- C9, amended: whenever the `DCHECK_EQ` cannot fire (no `DCHECK`s in the
build, or the cache is unset, or it holds the OS id), two successive calls of
`CurrentId()` with no `ClearTidCache` in between both return, and return the
same value; after the first call the cache holds exactly that value: the OS id
when the cache was unset, the cached value otherwise. Nothing else changes. -/
theorem current_id_twice_same (h : Host) (w : World) (hv : TidCacheValid h w) :
    ∃ v w1, CurrentId h w = Outcome.returned v w1 ∧ w1.g_thread_id = v ∧
      CurrentId h w1 = Outcome.returned v w1 ∧
      v = (if w.g_thread_id = -1 then h.gettid else w.g_thread_id) ∧
      w1.os = w.os ∧ w1.calls = w.calls := by
  refine ⟨cachedId h w, { w with g_thread_id := cachedId h w }, current_id_of_valid h w hv, rfl,
    ?_, rfl, rfl, rfl⟩
  have hstable := cached_id_stable h w hv
  rw [current_id_of_valid h _ hstable.1, hstable.2]

/-- C9, amended, on a fresh thread in a build with `DCHECK`s. -/
theorem current_id_twice_same_witness :
    TidCacheValid hostNoRt freshWorld ∧
    ∃ v w1, CurrentId hostNoRt freshWorld = Outcome.returned v w1 ∧ w1.g_thread_id = v ∧
      CurrentId hostNoRt w1 = Outcome.returned v w1 ∧
      v = (if freshWorld.g_thread_id = -1 then hostNoRt.gettid else freshWorld.g_thread_id) ∧
      w1.os = freshWorld.os ∧ w1.calls = freshWorld.calls :=
  ⟨Or.inr (Or.inl rfl), current_id_twice_same hostNoRt freshWorld (Or.inr (Or.inl rfl))⟩

/-! ### SetCurrentThreadPriorityImpl step by step (C6) -/

/-- C6, counterexample: in a build with `DCHECK`s, with 5 in the cache of a
thread whose OS id is 101, `SetCurrentThreadPriorityImpl(NORMAL)` does not
return: the `DCHECK_EQ` inside `CurrentId` terminates the process in the state
the call started in, so no `setpriority` is issued and no nice value is set,
although the level is not REALTIME_AUDIO. -/
theorem set_current_thread_priority_impl_stops_on_stale_cache :
    hostNoRt.dcheck_is_on = true ∧ staleWorld.g_thread_id = 5 ∧ hostNoRt.gettid = 101 ∧
    NORMAL ≠ REALTIME_AUDIO ∧
    SetCurrentThreadPriorityImpl hostNoRt NORMAL staleWorld = Outcome.fatal staleWorld ∧
    staleWorld.calls = [] ∧
    ¬ ∃ w1, SetCurrentThreadPriorityImpl hostNoRt NORMAL staleWorld = Outcome.returned () w1 := by
  have hfatal : SetCurrentThreadPriorityImpl hostNoRt NORMAL staleWorld =
      Outcome.fatal staleWorld := rfl
  refine ⟨rfl, rfl, rfl, by decide, hfatal, rfl, ?_⟩
  rintro ⟨w1, hw1⟩
  rw [hfatal] at hw1
  cases hw1

/-- C6, amended: for every level and OS state in which the `DCHECK` inside
`CurrentId` does not fire (a build without `DCHECK`s, or the thread-id cache
unset, or the cache equal to the OS thread id),
`SetCurrentThreadPriorityImpl(level)` returns, and among the calls it issues:
a `pthread_setschedparam` occurs exactly when `level` is REALTIME_AUDIO, and
it asks for `SCHED_RR` at priority 8; a `setpriority` occurs exactly when `level`
is not REALTIME_AUDIO or that switch was refused, and it asks for the calling
thread (`who = 0`) and the table's nice value of `level`. When the switch
succeeds the nice values are unchanged; otherwise they change exactly as that
`setpriority` is granted. -/
theorem set_current_thread_priority_impl_steps (h : Host) (priority : ThreadPriority)
    (w : World) (hv : TidCacheValid h w) :
    ∃ w1 issued, SetCurrentThreadPriorityImpl h priority w = Outcome.returned () w1 ∧
      w1.calls = w.calls ++ issued ∧
      kRealTimePrio.sched_priority = 8 ∧
      (∀ policy param, Call.pthread_setschedparam policy param ∈ issued ↔
        (priority = REALTIME_AUDIO ∧ policy = SCHED_RR ∧ param = kRealTimePrio)) ∧
      (∀ which who prio, Call.setpriority which who prio ∈ issued ↔
        ((priority ≠ REALTIME_AUDIO ∨ h.pthread_setschedparam_ret SCHED_RR kRealTimePrio ≠ 0) ∧
          which = PRIO_PROCESS ∧ who = 0 ∧ prio = ThreadPriorityToNiceValue priority)) ∧
      (priority = REALTIME_AUDIO ∧ h.pthread_setschedparam_ret SCHED_RR kRealTimePrio = 0 →
        w1.os.nice = w.os.nice ∧ w1.os.policy = SCHED_RR ∧ w1.os.sched_priority = 8) ∧
      (priority ≠ REALTIME_AUDIO ∨ h.pthread_setschedparam_ret SCHED_RR kRealTimePrio ≠ 0 →
        w1.os.nice =
          if h.setpriority_ret 0 (ThreadPriorityToNiceValue priority) = 0 then
            Function.update w.os.nice h.gettid (ThreadPriorityToNiceValue priority)
          else w.os.nice) := by
  have hw : ∀ hierarchy policy param,
      Call.pthread_setschedparam policy param ∉
        hierarchyCalls h (cachedId h w) hierarchy priority := by
    intro hierarchy policy param hmem
    obtain ⟨path, data, heq⟩ := hierarchy_calls_are_writes _ _ _ _ _ hmem
    cases heq
  have hs : ∀ hierarchy which who prio,
      Call.setpriority which who prio ∉
        hierarchyCalls h (cachedId h w) hierarchy priority := by
    intro hierarchy which who prio hmem
    obtain ⟨path, data, heq⟩ := hierarchy_calls_are_writes _ _ _ _ _ hmem
    cases heq
  rw [set_current_thread_priority_impl_of_valid h priority w hv]
  by_cases hrt : priority = REALTIME_AUDIO
  · subst hrt
    by_cases hret : h.pthread_setschedparam_ret SCHED_RR kRealTimePrio = 0
    · refine ⟨_, hierarchyCalls h (cachedId h w) "cpuset" REALTIME_AUDIO ++
          hierarchyCalls h (cachedId h w) "schedtune" REALTIME_AUDIO ++
          [Call.pthread_setschedparam SCHED_RR kRealTimePrio], rfl, ?_, rfl, ?_, ?_, ?_, ?_⟩
      · simp [hret, pthread_setschedparam_granted, set_thread_cgroups_eq]
      · intro policy param
        simp [hw]
      · intro which who prio
        simp [hs, hret]
      · intro _
        rw [if_pos ⟨rfl, hret⟩, pthread_setschedparam_granted h _ _ _ hret, set_thread_cgroups_eq]
        exact ⟨rfl, rfl, rfl⟩
      · intro hor
        rcases hor with hne | hne
        · exact absurd rfl hne
        · exact absurd hret hne
    · refine ⟨_, hierarchyCalls h (cachedId h w) "cpuset" REALTIME_AUDIO ++
          hierarchyCalls h (cachedId h w) "schedtune" REALTIME_AUDIO ++
          [Call.pthread_setschedparam SCHED_RR kRealTimePrio,
            Call.setpriority PRIO_PROCESS 0 (ThreadPriorityToNiceValue REALTIME_AUDIO)],
          rfl, ?_, rfl, ?_, ?_, ?_, ?_⟩
      · simp [hret, pthread_setschedparam_refused, set_thread_cgroups_eq, setpriority_snd]
      · intro policy param
        simp [hw]
      · intro which who prio
        simp [hs, hret]
      · intro hand
        exact absurd hand.2 hret
      · intro _
        simp [hret, pthread_setschedparam_refused, set_thread_cgroups_eq, setpriority_snd]
  · refine ⟨_, hierarchyCalls h (cachedId h w) "cpuset" priority ++
        hierarchyCalls h (cachedId h w) "schedtune" priority ++
        [Call.setpriority PRIO_PROCESS 0 (ThreadPriorityToNiceValue priority)],
        rfl, ?_, rfl, ?_, ?_, ?_, ?_⟩
    · simp [hrt, set_thread_cgroups_eq, setpriority_snd]
    · intro policy param
      simp [hw, hrt]
    · intro which who prio
      simp [hs, hrt]
    · intro hand
      exact absurd hand.1 hrt
    · intro _
      simp [hrt, set_thread_cgroups_eq, setpriority_snd]

/-- C6, amended, on a fresh thread asking for REALTIME_AUDIO on a host that
grants it. -/
theorem set_current_thread_priority_impl_steps_witness :
    TidCacheValid hostRt freshWorld ∧
    ∃ w1 issued, SetCurrentThreadPriorityImpl hostRt REALTIME_AUDIO freshWorld =
        Outcome.returned () w1 ∧
      w1.calls = freshWorld.calls ++ issued ∧
      Call.pthread_setschedparam SCHED_RR kRealTimePrio ∈ issued ∧
      w1.os.nice = freshWorld.os.nice := by
  refine ⟨Or.inr (Or.inl rfl), ?_⟩
  obtain ⟨w1, issued, hret, hcalls, _, hswitch, _, hgranted, _⟩ :=
    set_current_thread_priority_impl_steps hostRt REALTIME_AUDIO freshWorld (Or.inr (Or.inl rfl))
  exact ⟨w1, issued, hret, hcalls, (hswitch _ _).2 ⟨rfl, rfl, rfl⟩, (hgranted ⟨rfl, rfl⟩).1⟩

/-- With a valid cache `SetCurrentThreadPriorityImpl` returns in
`implFinalWorld`. -/
theorem set_current_thread_priority_impl_returns (h : Host) (priority : ThreadPriority)
    (w : World) (hv : TidCacheValid h w) :
    SetCurrentThreadPriorityImpl h priority w =
      Outcome.returned () (implFinalWorld h priority w) :=
  set_current_thread_priority_impl_of_valid h priority w hv

/-- The fields of `implFinalWorld`, one by one. -/
theorem impl_final_world_fields (h : Host) (priority : ThreadPriority) (w : World) :
    (implFinalWorld h priority w).g_thread_id = cachedId h w ∧
    (implFinalWorld h priority w).os.policy =
      (if priority = REALTIME_AUDIO ∧ h.pthread_setschedparam_ret SCHED_RR kRealTimePrio = 0
        then SCHED_RR else w.os.policy) ∧
    (implFinalWorld h priority w).os.sched_priority =
      (if priority = REALTIME_AUDIO ∧ h.pthread_setschedparam_ret SCHED_RR kRealTimePrio = 0
        then 8 else w.os.sched_priority) ∧
    (implFinalWorld h priority w).os.nice =
      (if priority = REALTIME_AUDIO ∧ h.pthread_setschedparam_ret SCHED_RR kRealTimePrio = 0
        then w.os.nice
        else if h.setpriority_ret 0 (ThreadPriorityToNiceValue priority) = 0 then
          Function.update w.os.nice h.gettid (ThreadPriorityToNiceValue priority)
        else w.os.nice) ∧
    (implFinalWorld h priority w).os.members =
      hierarchyMembers h (cachedId h w) "schedtune" priority
        (hierarchyMembers h (cachedId h w) "cpuset" priority w.os.members) := by
  unfold implFinalWorld
  by_cases hrt : priority = REALTIME_AUDIO
  · subst hrt
    by_cases hret : h.pthread_setschedparam_ret SCHED_RR kRealTimePrio = 0
    · rw [if_pos ⟨rfl, hret⟩, pthread_setschedparam_granted h _ _ _ hret, set_thread_cgroups_eq]
      rw [if_pos ⟨rfl, hret⟩, if_pos ⟨rfl, hret⟩, if_pos ⟨rfl, hret⟩]
      exact ⟨rfl, rfl, rfl, rfl, rfl⟩
    · rw [if_neg (fun hand => hret hand.2), if_pos rfl, setpriority_snd,
        pthread_setschedparam_refused h _ _ _ hret, set_thread_cgroups_eq]
      simp [hret]
  · rw [if_neg (fun hand => hrt hand.1), if_neg hrt, setpriority_snd, set_thread_cgroups_eq]
    simp [hrt]

/-- Validity of the cache and the id handed out depend on the cache alone. -/
theorem cached_id_of_eq (h : Host) (w w1 : World) (hv : TidCacheValid h w)
    (hg : w1.g_thread_id = cachedId h w) :
    TidCacheValid h w1 ∧ cachedId h w1 = cachedId h w := by
  have hstable := cached_id_stable h w hv
  unfold TidCacheValid cachedId at hstable ⊢
  simp only at hstable
  rw [hg]
  exact hstable

/-! ### Idempotence (C8) -/

/-- With an invalid cache `CurrentId` is fatal, and so is
`SetCurrentThreadPriorityImpl`, before anything is changed. -/
theorem set_current_thread_priority_impl_fatal (h : Host) (priority : ThreadPriority)
    (w : World) (hv : ¬ TidCacheValid h w) :
    SetCurrentThreadPriorityImpl h priority w = Outcome.fatal w := by
  unfold TidCacheValid at hv
  push_neg at hv
  obtain ⟨hon, hset, hne⟩ := hv
  have hon2 : h.dcheck_is_on = true := by simpa using hon
  unfold SetCurrentThreadPriorityImpl SetCurrentThreadPriorityForPlatform CurrentId
  rw [if_neg hset, if_pos ⟨hon2, hne⟩]

/-- C8: for every level and every state (scheduling class, real-time priority,
nice values, resource-group membership, thread-id cache; the host's answers fixed),
`SetCurrentThreadPriorityImpl(level)` applied twice in a row ends in the same OS
state and the same cache as applied once, and ends the same way. It returns
exactly when the `DCHECK` of `CurrentId` does not fire; when it fires, the
first call already stops, with nothing changed. -/
theorem set_current_thread_priority_impl_idempotent (h : Host) (priority : ThreadPriority)
    (w : World) :
    (applyTwice h priority w).world.os = (SetCurrentThreadPriorityImpl h priority w).world.os ∧
    (applyTwice h priority w).world.g_thread_id =
      (SetCurrentThreadPriorityImpl h priority w).world.g_thread_id ∧
    ((∃ w2, applyTwice h priority w = Outcome.returned () w2) ↔
      ∃ w1, SetCurrentThreadPriorityImpl h priority w = Outcome.returned () w1) ∧
    ((∃ w1, SetCurrentThreadPriorityImpl h priority w = Outcome.returned () w1) ↔
      TidCacheValid h w) ∧
    (¬ TidCacheValid h w → SetCurrentThreadPriorityImpl h priority w = Outcome.fatal w) := by
  by_cases hv : TidCacheValid h w
  · obtain ⟨hg1, hpol1, hprio1, hnice1, hfiles1⟩ := impl_final_world_fields h priority w
    obtain ⟨hv1, hid1⟩ := cached_id_of_eq h w (implFinalWorld h priority w) hv hg1
    obtain ⟨hg2, hpol2, hprio2, hnice2, hfiles2⟩ :=
      impl_final_world_fields h priority (implFinalWorld h priority w)
    have hfirst := set_current_thread_priority_impl_returns h priority w hv
    have hsecond : applyTwice h priority w =
        Outcome.returned () (implFinalWorld h priority (implFinalWorld h priority w)) := by
      unfold applyTwice
      rw [hfirst]
      exact set_current_thread_priority_impl_returns h priority _ hv1
    rw [hsecond, hfirst]
    refine ⟨?_, ?_, ⟨fun _ => ⟨_, rfl⟩, fun _ => ⟨_, rfl⟩⟩, ⟨fun _ => hv, fun _ => ⟨_, rfl⟩⟩,
      fun hnv => absurd hv hnv⟩
    · apply OSState.ext
      · show (implFinalWorld h priority (implFinalWorld h priority w)).os.policy =
          (implFinalWorld h priority w).os.policy
        rw [hpol2, hpol1]
        split_ifs <;> rfl
      · show (implFinalWorld h priority (implFinalWorld h priority w)).os.sched_priority =
          (implFinalWorld h priority w).os.sched_priority
        rw [hprio2, hprio1]
        split_ifs <;> rfl
      · show (implFinalWorld h priority (implFinalWorld h priority w)).os.nice =
          (implFinalWorld h priority w).os.nice
        rw [hnice2, hnice1]
        split_ifs <;> simp
      · show (implFinalWorld h priority (implFinalWorld h priority w)).os.members =
          (implFinalWorld h priority w).os.members
        rw [hfiles2, hfiles1, hid1]
        exact hierarchy_members_idempotent h (cachedId h w) priority w.os.members
    · show (implFinalWorld h priority (implFinalWorld h priority w)).g_thread_id =
        (implFinalWorld h priority w).g_thread_id
      rw [hg2, hid1, hg1]
  · have hfirst := set_current_thread_priority_impl_fatal h priority w hv
    have hsecond : applyTwice h priority w = Outcome.fatal w := by
      unfold applyTwice
      rw [hfirst]
    rw [hsecond, hfirst]
    refine ⟨rfl, rfl, ⟨fun hex => ?_, fun hex => ?_⟩, ⟨fun hex => ?_, fun hval => absurd hval hv⟩,
      fun _ => rfl⟩
    · obtain ⟨w2, hw2⟩ := hex
      cases hw2
    · obtain ⟨w2, hw2⟩ := hex
      cases hw2
    · obtain ⟨w2, hw2⟩ := hex
      cases hw2

/-- C8 on a fresh thread asking for BACKGROUND: both calls return. -/
theorem set_current_thread_priority_impl_idempotent_witness :
    TidCacheValid hostNoRt freshWorld ∧
    (∃ w2, applyTwice hostNoRt BACKGROUND freshWorld = Outcome.returned () w2) ∧
    (applyTwice hostNoRt BACKGROUND freshWorld).world.os =
      (SetCurrentThreadPriorityImpl hostNoRt BACKGROUND freshWorld).world.os :=
  ⟨Or.inr (Or.inl rfl),
    (set_current_thread_priority_impl_idempotent hostNoRt BACKGROUND freshWorld).2.2.1.2
      ((set_current_thread_priority_impl_idempotent hostNoRt BACKGROUND freshWorld).2.2.2.1.2
        (Or.inr (Or.inl rfl))),
    (set_current_thread_priority_impl_idempotent hostNoRt BACKGROUND freshWorld).1⟩

/-! ### Set then get (C2, C3) -/

/-- C2, counterexample. First: a thread already in `SCHED_RR` at priority 8
asks for NORMAL on a host where every call succeeds; it stays in that class and
reads back REALTIME_AUDIO. Second: the switch is granted but
`pthread_getschedparam` fails afterwards; REALTIME_AUDIO reads back as NORMAL,
the level of the untouched nice value 0. -/
theorem set_then_get_not_same_level :
    (hostNoRt.setpriority_ret 0 (ThreadPriorityToNiceValue NORMAL) = 0 ∧
      hostNoRt.getpriority_errno = 0 ∧
      ∃ w1, SetCurrentThreadPriorityImpl hostNoRt NORMAL rrWorld = Outcome.returned () w1 ∧
        GetCurrentThreadPriority hostNoRt w1 = REALTIME_AUDIO) ∧
    (hostRtNoQuery.setpriority_ret 0 (ThreadPriorityToNiceValue REALTIME_AUDIO) = 0 ∧
      hostRtNoQuery.getpriority_errno = 0 ∧
      hostRtNoQuery.pthread_setschedparam_ret SCHED_RR kRealTimePrio = 0 ∧
      ∃ w1, SetCurrentThreadPriorityImpl hostRtNoQuery REALTIME_AUDIO freshWorld =
          Outcome.returned () w1 ∧
        GetCurrentThreadPriority hostRtNoQuery w1 = NORMAL) :=
  ⟨⟨rfl, rfl, _, rfl, rfl⟩, ⟨rfl, rfl, rfl, _, rfl, rfl⟩⟩

/-- C2, amended: with `setpriority`, `getpriority` and `pthread_getschedparam`
succeeding and the thread-id cache valid, for every level and every starting
state in which the thread is not already in `SCHED_RR` at priority 8 unless the
level asked for is REALTIME_AUDIO, `SetCurrentThreadPriorityImpl(level)`
returns and `GetCurrentThreadPriority()` then gives `level`. When the level is
REALTIME_AUDIO and the switch is refused, the nice value becomes -10 and the
result is the level that nice value maps to, which is REALTIME_AUDIO again. -/
theorem set_then_get_same_level (h : Host) (priority : ThreadPriority) (w : World)
    (hv : TidCacheValid h w)
    (hset : h.setpriority_ret 0 (ThreadPriorityToNiceValue priority) = 0)
    (hget : h.getpriority_errno = 0)
    (hquery : h.pthread_getschedparam_ret = 0)
    (hclass : priority = REALTIME_AUDIO ∨ ¬ (w.os.policy = SCHED_RR ∧ w.os.sched_priority = 8)) :
    ∃ w1, SetCurrentThreadPriorityImpl h priority w = Outcome.returned () w1 ∧
      GetCurrentThreadPriority h w1 = priority ∧
      (priority = REALTIME_AUDIO → h.pthread_setschedparam_ret SCHED_RR kRealTimePrio ≠ 0 →
        w1.os.nice h.gettid = -10 ∧
        GetCurrentThreadPriority h w1 = NiceValueToThreadPriority (w1.os.nice h.gettid)) := by
  obtain ⟨_, hpol, hprio, hnice, _⟩ := impl_final_world_fields h priority w
  have hk : kRealTimePrio.sched_priority = 8 := rfl
  have hplatform : ∀ w1 : World, w1.os.policy = SCHED_RR → w1.os.sched_priority = 8 →
      GetCurrentThreadPriority h w1 = REALTIME_AUDIO := by
    intro w1 h1 h2
    unfold GetCurrentThreadPriority GetCurrentThreadPriorityForPlatform
    rw [if_pos ⟨hquery, h1, by rw [h2, hk]⟩]
  have hnicepath : ∀ w1 : World, ¬ (w1.os.policy = SCHED_RR ∧ w1.os.sched_priority = 8) →
      GetCurrentThreadPriority h w1 = NiceValueToThreadPriority (w1.os.nice h.gettid) := by
    intro w1 h1
    unfold GetCurrentThreadPriority GetCurrentThreadPriorityForPlatform getpriority
    rw [if_neg (fun hand => h1 ⟨hand.2.1, by rw [hand.2.2, hk]⟩)]
    simp [hget]
  refine ⟨implFinalWorld h priority w,
    set_current_thread_priority_impl_returns h priority w hv, ?_, ?_⟩
  · by_cases hrt : priority = REALTIME_AUDIO
    · subst hrt
      by_cases hret : h.pthread_setschedparam_ret SCHED_RR kRealTimePrio = 0
      · rw [if_pos ⟨rfl, hret⟩] at hpol hprio
        exact hplatform _ hpol hprio
      · rw [if_neg (fun hand => hret hand.2)] at hpol hprio hnice
        rw [if_pos hset] at hnice
        by_cases hin : w.os.policy = SCHED_RR ∧ w.os.sched_priority = 8
        · exact hplatform _ (hpol.trans hin.1) (hprio.trans hin.2)
        · rw [hnicepath _ (by rw [hpol, hprio]; exact hin), hnice, Function.update_same]
          exact nice_value_to_priority_of_priority REALTIME_AUDIO
    · have hin : ¬ (w.os.policy = SCHED_RR ∧ w.os.sched_priority = 8) := by
        rcases hclass with hc | hc
        · exact absurd hc hrt
        · exact hc
      rw [if_neg (fun hand => hrt hand.1)] at hpol hprio hnice
      rw [if_pos hset] at hnice
      rw [hnicepath _ (by rw [hpol, hprio]; exact hin), hnice, Function.update_same]
      exact nice_value_to_priority_of_priority priority
  · intro hrt hret
    subst hrt
    rw [if_neg (fun hand => hret hand.2)] at hpol hprio hnice
    rw [if_pos hset] at hnice
    have hnice10 : (implFinalWorld h REALTIME_AUDIO w).os.nice h.gettid = -10 := by
      rw [hnice, Function.update_same]
      rfl
    refine ⟨hnice10, ?_⟩
    rw [hnice10]
    by_cases hin : w.os.policy = SCHED_RR ∧ w.os.sched_priority = 8
    · rw [hplatform _ (hpol.trans hin.1) (hprio.trans hin.2)]
      rfl
    · rw [hnicepath _ (by rw [hpol, hprio]; exact hin), hnice10]

/-- C2, amended, on a fresh thread asking for DISPLAY. -/
theorem set_then_get_same_level_witness :
    ∃ w1, SetCurrentThreadPriorityImpl hostNoRt DISPLAY freshWorld = Outcome.returned () w1 ∧
      GetCurrentThreadPriority hostNoRt w1 = DISPLAY := by
  obtain ⟨w1, hret, hsame, _⟩ :=
    set_then_get_same_level hostNoRt DISPLAY freshWorld (Or.inr (Or.inl rfl)) rfl rfl rfl
      (Or.inr (by decide))
  exact ⟨w1, hret, hsame⟩

/-- C3, counterexample: a thread in `SCHED_OTHER`, a zero soft limit, the switch
to `SCHED_RR` refused, `setpriority` granted: the nice value becomes -10 and
the level read back is REALTIME_AUDIO. -/
theorem refused_switch_still_reads_realtime_audio :
    freshWorld.os.policy ≠ SCHED_RR ∧ hostNoRt.rlim.rlim_cur = 0 ∧
    hostNoRt.pthread_setschedparam_ret SCHED_RR kRealTimePrio ≠ 0 ∧
    ∃ w1, SetCurrentThreadPriorityImpl hostNoRt REALTIME_AUDIO freshWorld =
        Outcome.returned () w1 ∧
      w1.os.policy = SCHED_OTHER ∧ w1.os.nice hostNoRt.gettid = -10 ∧
      GetCurrentThreadPriority hostNoRt w1 = REALTIME_AUDIO :=
  ⟨by decide, rfl, by decide, _, rfl, rfl, rfl, rfl⟩

/-- C3, amended: for a thread that is not in `SCHED_RR`, when the switch to
`SCHED_RR` is refused (and the thread-id cache is valid),
`SetCurrentThreadPriorityImpl(REALTIME_AUDIO)` returns with the scheduling
class and real-time priority unchanged, having asked `setpriority` for -10;
`GetCurrentThreadPriority()` then never answers through the real-time class:
it gives the level of the resulting nice value (NORMAL when `getpriority`
fails), which is REALTIME_AUDIO exactly when that nice value is -10. -/
theorem refused_switch_falls_back_to_nice (h : Host) (w : World)
    (hv : TidCacheValid h w)
    (hclass : w.os.policy ≠ SCHED_RR)
    (hrefused : h.pthread_setschedparam_ret SCHED_RR kRealTimePrio ≠ 0) :
    ∃ w1, SetCurrentThreadPriorityImpl h REALTIME_AUDIO w = Outcome.returned () w1 ∧
      w1.os.policy = w.os.policy ∧ w1.os.sched_priority = w.os.sched_priority ∧
      w1.os.nice h.gettid = (if h.setpriority_ret 0 (-10) = 0 then -10 else w.os.nice h.gettid) ∧
      GetCurrentThreadPriorityForPlatform h w1 = none ∧
      GetCurrentThreadPriority h w1 =
        (if h.getpriority_errno ≠ 0 then NORMAL
          else NiceValueToThreadPriority (w1.os.nice h.gettid)) ∧
      (GetCurrentThreadPriority h w1 = REALTIME_AUDIO ↔
        h.getpriority_errno = 0 ∧ w1.os.nice h.gettid = -10) := by
  obtain ⟨_, hpol, hprio, hnice, _⟩ := impl_final_world_fields h REALTIME_AUDIO w
  have hpol1 : (implFinalWorld h REALTIME_AUDIO w).os.policy = w.os.policy := by
    rw [hpol, if_neg (fun hand => hrefused hand.2)]
  have hprio1 : (implFinalWorld h REALTIME_AUDIO w).os.sched_priority = w.os.sched_priority := by
    rw [hprio, if_neg (fun hand => hrefused hand.2)]
  have hplat : GetCurrentThreadPriorityForPlatform h (implFinalWorld h REALTIME_AUDIO w) = none := by
    unfold GetCurrentThreadPriorityForPlatform
    rw [hpol1]
    exact if_neg (fun hand => hclass hand.2.1)
  have hgetp : GetCurrentThreadPriority h (implFinalWorld h REALTIME_AUDIO w) =
      (if h.getpriority_errno ≠ 0 then NORMAL
        else NiceValueToThreadPriority ((implFinalWorld h REALTIME_AUDIO w).os.nice h.gettid)) := by
    unfold GetCurrentThreadPriority
    rw [hplat]
    rfl
  refine ⟨implFinalWorld h REALTIME_AUDIO w,
    set_current_thread_priority_impl_returns h REALTIME_AUDIO w hv, hpol1, hprio1, ?_, hplat,
    hgetp, ?_⟩
  · rw [hnice, if_neg (fun hand => hrefused hand.2), nice_value_realtime_audio]
    by_cases hok : h.setpriority_ret 0 (-10) = 0
    · rw [if_pos hok, if_pos hok, Function.update_same]
    · rw [if_neg hok, if_neg hok]
  · rw [hgetp]
    by_cases herr : h.getpriority_errno = 0
    · simp [herr, nice_value_to_priority_eq_realtime_audio]
    · simp [herr]

/-- C3, amended, on a fresh thread on a host that refuses the switch. -/
theorem refused_switch_falls_back_to_nice_witness :
    ∃ w1, SetCurrentThreadPriorityImpl hostNoRt REALTIME_AUDIO freshWorld =
        Outcome.returned () w1 ∧
      w1.os.policy = freshWorld.os.policy ∧
      GetCurrentThreadPriorityForPlatform hostNoRt w1 = none := by
  obtain ⟨w1, hret, hpol, _, _, hplat, _⟩ :=
    refused_switch_falls_back_to_nice hostNoRt freshWorld (Or.inr (Or.inl rfl)) (by decide)
      (by decide)
  exact ⟨w1, hret, hpol, hplat⟩

/-! ### Reference counting (C10) -/

/-- Running a sequence call by call. -/
theorem run_ops_cons (op : RefOp) (ops : List RefOp) (obj : RefCounted) :
    runOps (op :: ops) obj = runOps ops (op.apply obj) := rfl

/-- Running two sequences one after the other. -/
theorem run_ops_append (ops1 ops2 : List RefOp) (obj : RefCounted) :
    runOps (ops1 ++ ops2) obj = runOps ops2 (runOps ops1 obj) := by
  unfold runOps
  rw [List.foldl_append]

/-- The counter after one `AddRef`. -/
theorem add_ref_count (obj : RefCounted) :
    (RefOp.AddRef.apply obj).toBase.ref_count_ = (obj.toBase.ref_count_ + 1) % 2 ^ 32 ∧
    (RefOp.AddRef.apply obj).destructed = obj.destructed :=
  ⟨rfl, rfl⟩

/-- The counter after one `Release`, and when it destructs. -/
theorem release_count (obj : RefCounted) :
    (RefOp.Release.apply obj).toBase.ref_count_ =
      (obj.toBase.ref_count_ + (2 ^ 32 - 1)) % 2 ^ 32 ∧
    (RefOp.Release.apply obj).destructed =
      (obj.destructed || (obj.toBase.Release).1) := by
  unfold RefOp.apply RefCounted.Release
  dsimp only
  split_ifs with hrel
  · exact ⟨rfl, by simp [hrel]⟩
  · refine ⟨rfl, ?_⟩
    have hfalse : (obj.toBase.Release).1 = false := by simpa using hrel
    simp [hfalse]

/-- The counter stays below `2 ^ 32`. -/
theorem run_ops_count_lt (ops : List RefOp) (obj : RefCounted)
    (hlt : obj.toBase.ref_count_ < 2 ^ 32) : (runOps ops obj).toBase.ref_count_ < 2 ^ 32 := by
  induction ops generalizing obj with
  | nil => exact hlt
  | cons op rest ih =>
    rw [run_ops_cons]
    apply ih
    cases op
    · rw [(add_ref_count obj).1]
      exact Nat.mod_lt _ (by norm_num)
    · rw [(release_count obj).1]
      exact Nat.mod_lt _ (by norm_num)

/-- The counter is the start value plus the `AddRef`s minus the `Release`s,
modulo `2 ^ 32`. -/
theorem run_ops_count (ops : List RefOp) (obj : RefCounted)
    (hlt : obj.toBase.ref_count_ < 2 ^ 32) :
    ((runOps ops obj).toBase.ref_count_ : Int) =
      ((obj.toBase.ref_count_ : Int) + countAddRef ops - countRelease ops) % 2 ^ 32 := by
  induction ops generalizing obj with
  | nil =>
    have hlt2 : obj.toBase.ref_count_ < 4294967296 := by norm_num at hlt; exact hlt
    simp only [runOps, List.foldl_nil, countAddRef, countRelease, List.count_nil]
    norm_num
    omega
  | cons op rest ih =>
    rw [run_ops_cons]
    cases op
    · have hstep := (add_ref_count obj).1
      have hlt2 : (RefOp.AddRef.apply obj).toBase.ref_count_ < 2 ^ 32 := by
        rw [hstep]
        exact Nat.mod_lt _ (by norm_num)
      rw [ih _ hlt2, hstep]
      simp only [countAddRef, countRelease, List.count_cons_self, List.count_cons_of_ne,
        ne_eq, reduceCtorEq, not_false_eq_true]
      push_cast
      omega
    · have hstep := (release_count obj).1
      have hlt2 : (RefOp.Release.apply obj).toBase.ref_count_ < 2 ^ 32 := by
        rw [hstep]
        exact Nat.mod_lt _ (by norm_num)
      rw [ih _ hlt2, hstep]
      simp only [countAddRef, countRelease, List.count_cons_self, List.count_cons_of_ne,
        ne_eq, reduceCtorEq, not_false_eq_true]
      push_cast
      omega

/-- A counter below `2 ^ 32`: `Release` returns true exactly at 1. -/
theorem release_true_iff_one (base : subtle.RefCountedBase) (hlt : base.ref_count_ < 2 ^ 32) :
    base.Release.1 = true ↔ base.ref_count_ = 1 := by
  have hlt2 : base.ref_count_ < 4294967296 := by norm_num at hlt; exact hlt
  unfold subtle.RefCountedBase.Release subtle.RefCountedBase.ReleaseImpl
  simp only [beq_iff_eq]
  norm_num
  omega

/-- The start values are below `2 ^ 32`. -/
theorem new_count_lt (tag : StartRefCountTag) :
    (RefCounted.new tag).toBase.ref_count_ < 2 ^ 32 := by
  cases tag <;> simp [RefCounted.new, subtle.RefCountedBase.new]

/-- Once destructed, always destructed. -/
theorem run_ops_destructed (ops : List RefOp) (obj : RefCounted)
    (hd : obj.destructed = true) : (runOps ops obj).destructed = true := by
  induction ops generalizing obj with
  | nil => exact hd
  | cons op rest ih =>
    rw [run_ops_cons]
    apply ih
    cases op
    · rw [(add_ref_count obj).2, hd]
    · rw [(release_count obj).2, hd]
      rfl

/-- With `depth` references outstanding on top of the initial one, a
well-nested sequence that never has `2 ^ 32` outstanding destructs nothing. -/
theorem run_ops_not_destructed (ops : List RefOp) (depth : Nat) (obj : RefCounted)
    (hcount : obj.toBase.ref_count_ = (1 + depth) % 2 ^ 32)
    (hd : obj.destructed = false)
    (hnest : wellNested depth ops = true)
    (hdepth : maxDepth depth ops < 2 ^ 32) :
    (runOps ops obj).destructed = false := by
  induction ops generalizing depth obj with
  | nil => exact hd
  | cons op rest ih =>
    rw [run_ops_cons]
    cases op
    · simp only [wellNested] at hnest
      simp only [maxDepth] at hdepth
      apply ih (depth + 1)
      · rw [(add_ref_count obj).1, hcount]
        norm_num
        omega
      · rw [(add_ref_count obj).2, hd]
      · exact hnest
      · exact lt_of_le_of_lt (le_max_right _ _) hdepth
    · simp only [wellNested, Bool.and_eq_true, decide_eq_true_eq] at hnest
      simp only [maxDepth] at hdepth
      have hdlt : depth < 2 ^ 32 := lt_of_le_of_lt (le_max_left _ _) hdepth
      have hdlt2 : depth < 4294967296 := by norm_num at hdlt; exact hdlt
      have hpos := hnest.1
      apply ih (depth - 1)
      · rw [(release_count obj).1, hcount]
        norm_num
        omega
      · rw [(release_count obj).2, hd]
        have hne : ¬ obj.toBase.ref_count_ = 1 := by
          rw [hcount]
          norm_num
          omega
        have hlt : obj.toBase.ref_count_ < 2 ^ 32 := by
          rw [hcount]
          exact Nat.mod_lt _ (by norm_num)
        have hrel : (obj.toBase.Release).1 = false := by
          rw [← Bool.not_eq_true, release_true_iff_one _ hlt]
          exact hne
        rw [hrel]
        rfl
      · exact hnest.2
      · exact lt_of_le_of_lt (le_max_right _ _) hdepth

/-- The counter after `n` calls of `AddRef` in a row. -/
theorem run_ops_replicate_add_ref (n : Nat) (obj : RefCounted)
    (hlt : obj.toBase.ref_count_ < 2 ^ 32) :
    (runOps (List.replicate n RefOp.AddRef) obj).toBase.ref_count_ =
      (obj.toBase.ref_count_ + n) % 2 ^ 32 ∧
    (runOps (List.replicate n RefOp.AddRef) obj).destructed = obj.destructed := by
  induction n generalizing obj with
  | zero =>
    refine ⟨?_, rfl⟩
    rw [Nat.add_zero, Nat.mod_eq_of_lt hlt]
    rfl
  | succ n ih =>
    rw [List.replicate_succ, run_ops_cons]
    have hlt2 : (RefOp.AddRef.apply obj).toBase.ref_count_ < 2 ^ 32 := by
      rw [(add_ref_count obj).1]
      exact Nat.mod_lt _ (by norm_num)
    obtain ⟨hc, hd⟩ := ih _ hlt2
    refine ⟨?_, ?_⟩
    · rw [hc, (add_ref_count obj).1]
      norm_num
      omega
    · rw [hd, (add_ref_count obj).2]

/-- Nesting: `n` calls of `AddRef` in front add `n` to the depth. -/
theorem well_nested_replicate_add_ref (n depth : Nat) (rest : List RefOp) :
    wellNested depth (List.replicate n RefOp.AddRef ++ rest) = wellNested (depth + n) rest := by
  induction n generalizing depth with
  | zero => rfl
  | succ n ih =>
    rw [List.replicate_succ, List.cons_append]
    simp only [wellNested]
    rw [ih, Nat.add_assoc, Nat.add_comm 1 n]

/-- Nesting: `n` calls of `Release` give back `n` outstanding references. -/
theorem well_nested_replicate_release (n : Nat) :
    wellNested n (List.replicate n RefOp.Release) = true := by
  induction n with
  | zero => rfl
  | succ n ih =>
    rw [List.replicate_succ]
    simp only [wellNested, Nat.add_sub_cancel, ih, Nat.succ_pos, decide_True, Bool.and_self]

/-- A non-empty run of one call starts with that call. -/
theorem replicate_pos (n : Nat) (op : RefOp) (hn : 0 < n) :
    List.replicate n op = op :: List.replicate (n - 1) op := by
  cases n with
  | zero => exact absurd hn (Nat.lt_irrefl 0)
  | succ n => rw [List.replicate_succ, Nat.add_sub_cancel]

/-- After `n` calls of `AddRef` and one `Release` that finds the counter at 1,
the object is destructed whatever follows. -/
theorem run_ops_overflow (n : Nat) (rest : List RefOp) (obj : RefCounted)
    (hlt : obj.toBase.ref_count_ < 2 ^ 32)
    (hone : (obj.toBase.ref_count_ + n) % 2 ^ 32 = 1) :
    (runOps (List.replicate n RefOp.AddRef ++ RefOp.Release :: rest) obj).destructed = true := by
  rw [run_ops_append, run_ops_cons]
  apply run_ops_destructed
  obtain ⟨hc, _⟩ := run_ops_replicate_add_ref n obj hlt
  rw [(release_count _).2]
  have hlt2 : (runOps (List.replicate n RefOp.AddRef) obj).toBase.ref_count_ < 2 ^ 32 := by
    rw [hc]
    exact Nat.mod_lt _ (by norm_num)
  have hrel : ((runOps (List.replicate n RefOp.AddRef) obj).toBase.Release).1 = true := by
    rw [release_true_iff_one _ hlt2, hc, hone]
  rw [hrel, Bool.or_true]

/-- C10, counterexample: `2 ^ 32` calls of `AddRef` followed by `2 ^ 32` calls
of `Release` are balanced pairs, the object starts from one, and yet the first
of these `Release` calls finds the wrapped counter at 1 and destructs the
object. -/
theorem balanced_pairs_destruct_after_wrap :
    Balanced overflowOps ∧
    (runOps (List.replicate (2 ^ 32) RefOp.AddRef)
      (RefCounted.new MyClass.kRefCountPreference)).toBase.ref_count_ = 1 ∧
    (runOps overflowOps (RefCounted.new MyClass.kRefCountPreference)).destructed = true := by
  have hlt := new_count_lt MyClass.kRefCountPreference
  have hone : ((RefCounted.new MyClass.kRefCountPreference).toBase.ref_count_ + 2 ^ 32) % 2 ^ 32
      = 1 := by
    rw [Nat.add_mod_right]
    rfl
  refine ⟨?_, ?_, ?_⟩
  · unfold Balanced overflowOps
    rw [well_nested_replicate_add_ref, Nat.zero_add]
    exact well_nested_replicate_release _
  · rw [(run_ops_replicate_add_ref _ _ hlt).1, hone]
  · unfold overflowOps
    rw [replicate_pos _ RefOp.Release (by norm_num : 0 < 2 ^ 32)]
    exact run_ops_overflow _ _ _ hlt hone

/-- C10, amended: for a counter started at 0 (zero tag) or 1 (one tag, as
`MyClass`) and any sequence of `AddRef`/`Release` calls, the stored count is
(start + number of `AddRef` - number of `Release`) mod `2 ^ 32`; a further
`Release` returns true exactly when the count is 1 before it, and
`RefCounted::Release` destructs exactly then; so an object that starts from
one and receives only balanced `AddRef`/`Release` pairs with fewer than
`2 ^ 32` references outstanding at any time is not destructed at any point. -/
theorem ref_count_tracks_calls (tag : StartRefCountTag) (ops : List RefOp) :
    (RefCounted.new tag).toBase.ref_count_ =
      (match tag with
        | StartRefCountTag.kStartRefCountFromZeroTag => 0
        | StartRefCountTag.kStartRefCountFromOneTag => 1) ∧
    ((runOps ops (RefCounted.new tag)).toBase.ref_count_ : Int) =
      (((RefCounted.new tag).toBase.ref_count_ : Int) + countAddRef ops - countRelease ops)
        % 2 ^ 32 ∧
    (((runOps ops (RefCounted.new tag)).toBase.Release).1 = true ↔
      (runOps ops (RefCounted.new tag)).toBase.ref_count_ = 1) ∧
    ((runOps ops (RefCounted.new tag)).Release).destructed =
      ((runOps ops (RefCounted.new tag)).destructed ||
        ((runOps ops (RefCounted.new tag)).toBase.Release).1) ∧
    (tag = MyClass.kRefCountPreference → Balanced ops → maxDepth 0 ops < 2 ^ 32 →
      ∀ k, (runOps (ops.take k) (RefCounted.new tag)).destructed = false) := by
  refine ⟨?_, ?_, ?_, ?_, ?_⟩
  · cases tag <;> rfl
  · exact run_ops_count ops (RefCounted.new tag) (new_count_lt tag)
  · exact release_true_iff_one _ (run_ops_count_lt ops _ (new_count_lt tag))
  · exact (release_count (runOps ops (RefCounted.new tag))).2
  · intro htag hbal hdepth k
    subst htag
    have hwhole : (runOps ops (RefCounted.new MyClass.kRefCountPreference)).destructed = false :=
      run_ops_not_destructed ops 0 _ rfl rfl hbal hdepth
    by_contra hk
    rw [Bool.not_eq_false] at hk
    have hsplit := run_ops_append (ops.take k) (ops.drop k)
      (RefCounted.new MyClass.kRefCountPreference)
    rw [List.take_append_drop] at hsplit
    rw [hsplit, run_ops_destructed _ _ hk] at hwhole
    exact Bool.noConfusion hwhole

/-- C10, amended, on the sequence of test.cpp: `WrapRefCounted` takes one
reference on a `MyClass` and the `scoped_refptr` gives it back. -/
theorem ref_count_tracks_calls_witness :
    Balanced [RefOp.AddRef, RefOp.Release] ∧
    maxDepth 0 [RefOp.AddRef, RefOp.Release] < 2 ^ 32 ∧
    ∀ k, (runOps ([RefOp.AddRef, RefOp.Release].take k)
      (RefCounted.new MyClass.kRefCountPreference)).destructed = false :=
  ⟨rfl, by decide,
    (ref_count_tracks_calls MyClass.kRefCountPreference [RefOp.AddRef, RefOp.Release]).2.2.2.2
      rfl rfl (by decide)⟩

end base
